import Mathlib

/-!
Verification development for the OI dashboard acquisition engine.

The Python sources are embedded shallowly:

* numeric payload/database values (open interest, volumes, strike prices,
  underlying prices) are embedded as `Int`.  Every operation the verified
  properties exercise — subtraction, multiplication, order comparison —
  is a ring/order operation with no division, so the embedding agrees
  exactly with the source's arithmetic on the (integral) values involved.
* Python dicts are embedded as association lists where a new binding is
  consed to the front and lookup returns the first match, i.e. the most
  recent write: exactly a dict's read-after-write behaviour.
* `requests` calls are embedded as oracles `Nat → AttemptOutcome ε α`
  giving the outcome of each attempt; wall-clock instants are `Nat`s.
  Time-of-day strings `"HH:MM"` produced by `strftime` are zero padded, so
  their lexicographic order coincides with minutes-since-midnight; they
  are embedded as `Nat` minutes below 1440, and subtracting a
  `timedelta` before rendering with `%H:%M` wraps modulo 1440.
* the SQLite tables (`stocks`, `oi_data`, `option_chain_data`) are
  embedded as append-only lists; surrogate-id order is list order, and a
  row's `stock_id` is replaced by the (unique) stock symbol.
-/

/-! ## Retry layer — `data_fetcher.requests_get_with_retry`

The source loops `for attempt in range(1, max_retries + 1)`; inside the
`try` it returns the response when `status_code == 200` and otherwise calls
`resp.raise_for_status()`; the `except` records the raised exception in
`last_exc` and sleeps; after the loop it executes `raise last_exc`.

One attempt therefore has three outcomes, not two:

* `ok resp` — a status-200 response, returned immediately;
* `exc e` — an exception: a network error raised by the GET itself, or the
  `HTTPError` that `raise_for_status` raises for a 400-599 status; the
  `except` clause records it in `last_exc`;
* `silent` — a response whose status is neither 200 nor in 400-599 (e.g.
  204 or 304): `raise_for_status` returns normally, the `if` falls through
  the end of the `try` body, **nothing is recorded** and no backoff runs.

After the loop, `raise last_exc` re-raises the most recently *recorded*
exception.  When every attempt was `silent`, `last_exc` is still `None`
and `raise None` raises a `TypeError` — modelled as `Except.error none`,
an error of another kind carrying no underlying cause.  `Except.error
(some e)` is the re-raise of the recorded exception `e`. -/

inductive AttemptOutcome (ε α : Type) where
  | ok (resp : α)
  | exc (e : ε)
  | silent
deriving DecidableEq

/-- An attempt that does not return a payload to the caller (either kind of
failure: a raised exception or a silent non-200 status). -/
def attempt_fails {ε α : Type} : AttemptOutcome ε α → Bool
  | AttemptOutcome.ok _ => false
  | AttemptOutcome.exc _ => true
  | AttemptOutcome.silent => true

def retry_go {ε α : Type} (attempt_result : Nat → AttemptOutcome ε α) :
    Nat → Nat → Option ε → Except (Option ε) α
  | _, 0, last_exc => Except.error last_exc
  | attempt, fuel + 1, last_exc =>
    match attempt_result attempt with
    | AttemptOutcome.ok resp => Except.ok resp
    | AttemptOutcome.exc e => retry_go attempt_result (attempt + 1) fuel (some e)
    | AttemptOutcome.silent => retry_go attempt_result (attempt + 1) fuel last_exc

def requests_get_with_retry {ε α : Type} (attempt_result : Nat → AttemptOutcome ε α)
    (max_retries : Nat) : Except (Option ε) α :=
  retry_go attempt_result 1 max_retries none

/-! ## `data_fetcher.fetch_oi_data`

The source builds the option-chain URL for the symbol, fetches cookies,
and unconditionally calls `requests_get_with_retry` — there is no cache
of any kind in the module (no mapping symbol → (payload, fetched_at)
exists anywhere in the repository).  The embedding threads the list of
upstream option-chain fetches issued so far (`upstream_log`, one entry
`(symbol, time)` per call of `fetch_oi_data`) to make the number of
upstream calls observable.  `attempts symbol t` is the per-attempt
outcome oracle of the GET issued at time `t`. -/

def fetch_oi_data {α : Type} (attempts : String → Nat → Nat → AttemptOutcome Unit α)
    (upstream_log : List (String × Nat)) (symbol : String) (t : Nat) :
    List (String × Nat) × Except (Option Unit) α :=
  (upstream_log ++ [(symbol, t)], requests_get_with_retry (attempts symbol t) 4)

/-- Iterated calls of `fetch_oi_data`: one invocation per `(symbol, time)`
entry of the schedule, threading the upstream log. -/
def fetch_oi_data_runs {α : Type} (attempts : String → Nat → Nat → AttemptOutcome Unit α) :
    List (String × Nat) → List (String × Nat) → List (String × Nat)
  | upstream_log, [] => upstream_log
  | upstream_log, (symbol, t) :: rest =>
    fetch_oi_data_runs attempts (fetch_oi_data (α := α) attempts upstream_log symbol t).1 rest

/-! ## Rotation scheduler batch selection — `app.background_scan_loop`

`scan_batch_slice stocks runtime_batch last_index` is the batch
computation of one cycle (lines 181-190 of `app.py`): `start_idx =
last_index % total`, `end_idx = start_idx + runtime_batch`, then either
one `offset start limit runtime_batch` query or the wrap-around pair of
queries.  SQL `offset o limit n` over the id-ordered stock list is
`(stocks.drop o).take n` (`limit` clamps at the end of the table, as
`List.take` does). -/

def scan_batch_slice {α : Type} (stocks : List α) (runtime_batch last_index : Nat) : List α :=
  let total := stocks.length
  let start_idx := last_index % total
  let end_idx := start_idx + runtime_batch
  if end_idx ≤ total then (stocks.drop start_idx).take runtime_batch
  else stocks.drop start_idx ++ stocks.take (end_idx - total)

/-- Cursor commit (line 212 of `app.py`): `new_index = (start_idx + processed) % total`. -/
def new_scan_index (total start_idx processed : Nat) : Nat :=
  (start_idx + processed) % total

/-- Length of the batch produced by `scan_batch_slice` on a list of length `T`. -/
def scan_len (T B c : Nat) : Nat :=
  if c % T + B ≤ T then B else (T - c % T) + min (c % T + B - T) T

/-- `scan_visits T B c k`: concatenated pre-shuffle visit sequence (as indices
into the id-ordered stock list) of `k` consecutive scheduler cycles starting
from cursor `c`, with the cursor committed via `new_scan_index` after each
cycle.  The advance by the full batch length corresponds to every selected
stock having a non-empty symbol (the `processed` counter of the source). -/
def scan_visits (T B : Nat) : Nat → Nat → List Nat
  | _, 0 => []
  | c, k + 1 =>
    let batch := scan_batch_slice (List.range T) B c
    batch ++ scan_visits T B (new_scan_index T (c % T) batch.length) k

/-- Total number of visits across `k` cycles. -/
def scan_total_len (T B : Nat) : Nat → Nat → Nat
  | _, 0 => 0
  | c, k + 1 => scan_len T B c + scan_total_len T B (new_scan_index T (c % T) (scan_len T B c)) k

/-- `ceil(T / B)` as used by the fairness property. -/
def ceil_cycles (T B : Nat) : Nat := (T + B - 1) / B

/-! ## Per-batch processing — `app.background_scan_loop` lines 195-209

Each batch member with a falsy symbol (`None` or the empty string) is
skipped by `continue` before the fetch/persist block; for every other
member, the fetch/persist block runs (its exceptions are caught) and
`processed` is incremented.  `scan_process` returns the final `processed`
count and the list of symbols for which the fetch/persist block ran. -/

def scan_process (batch : List (Option String)) : Nat × List String :=
  batch.foldl
    (fun acc st =>
      match st with
      | none => acc
      | some s => if s = "" then acc else (acc.1 + 1, acc.2 ++ [s]))
    (0, [])

/-- The members of a batch that survive the `if not stock.symbol: continue` guard. -/
def sym_filter : Option String → Option String
  | none => none
  | some s => if s = "" then none else some s

/-! ## NSE payload model

The slice of the NSE option-chain JSON document read by the sources:
`records.expiryDates`, `records.data` (per-strike records), and
`records.underlyingValue`; plus the `filtered.CE/PE.totOI/totVol`
aggregates.  A missing or falsy field is `none`. -/

structure OptionChainRecord where
  strikePrice : Option Int
  expiryDate : String
  ceOpenInterest : Option Int
  ceChangeOi : Option Int
  ceVolume : Option Int
  peOpenInterest : Option Int
  peChangeOi : Option Int
  peVolume : Option Int
deriving DecidableEq

structure NseRecords where
  expiryDates : List String
  data : List OptionChainRecord
  underlyingValue : Option Int
deriving DecidableEq

structure NsePayload where
  records : Option NseRecords
  filteredCeTotOi : Option Int
  filteredCeTotVol : Option Int
  filteredPeTotOi : Option Int
  filteredPeTotVol : Option Int
deriving DecidableEq

/-- Python-dict read: first (most recent) binding of the key wins. -/
def dget {κ ν : Type} [DecidableEq κ] (m : List (κ × ν)) (k : κ) : Option ν :=
  (m.find? fun p => decide (p.1 = k)).map (·.2)

/-- Python-dict key set (each key once). -/
def dkeys {κ ν : Type} [DecidableEq κ] (m : List (κ × ν)) : List κ :=
  (m.map (·.1)).dedup

/-! ## Max pain — `data_fetcher.calculate_max_pain` -/

/-- The `records['data']` rows of the current (first-listed) expiry:
`option_chain_data = [r for r in records['data'] if r.get('expiryDate') == current_expiry]`. -/
def current_expiry_rows (records : NseRecords) : List OptionChainRecord :=
  match records.expiryDates with
  | [] => []
  | current_expiry :: _ => records.data.filter (fun r => r.expiryDate = current_expiry)

/-- The `strikes` list and the `ce_oi` / `pe_oi` dicts built by the first loop
of `calculate_max_pain`.  `if not strike: continue` skips a missing strike and
the (falsy) strike `0`. -/
def max_pain_tables (rows : List OptionChainRecord) :
    List Int × List (Int × Int) × List (Int × Int) :=
  rows.foldl
    (fun acc r =>
      match r.strikePrice with
      | none => acc
      | some strike =>
        if strike = 0 then acc
        else (acc.1 ++ [strike],
              (strike, r.ceOpenInterest.getD 0) :: acc.2.1,
              (strike, r.peOpenInterest.getD 0) :: acc.2.2))
    ([], [], [])

/-- The inner loop of `calculate_max_pain`: total writer loss of the candidate
strike `test`, summed over all entries of `strikes`. -/
def writer_loss (strikes : List Int) (ce_oi pe_oi : List (Int × Int)) (test : Int) : Int :=
  strikes.foldl
    (fun total_loss strike =>
      total_loss
        + (if strike < test then (test - strike) * (dget ce_oi strike).getD 0 else 0)
        + (if test < strike then (strike - test) * (dget pe_oi strike).getD 0 else 0))
    0

/-- One step of the outer loop of `calculate_max_pain`: update
`(min_loss, max_pain_strike)` when `total_loss < min_loss`, where a `none`
first component is the initial `float('inf')`. -/
def max_pain_step (loss : Int → Int) (acc : Option Int × Int) (test_strike : Int) :
    Option Int × Int :=
  match acc.1 with
  | none => (some (loss test_strike), test_strike)
  | some min_loss =>
    if loss test_strike < min_loss then (some (loss test_strike), test_strike) else acc

/-- The outer loop of `calculate_max_pain`: running strict minimum of the loss,
`min_loss` starting at `float('inf')` (here `none`), `max_pain_strike` at `0`. -/
def max_pain_scan (loss : Int → Int) (strikes : List Int) : Option Int × Int :=
  strikes.foldl (max_pain_step loss) (none, 0)

def calculate_max_pain (full_data : Option NsePayload) : Int :=
  match full_data with
  | none => 0
  | some d =>
    match d.records with
    | none => 0
    | some records =>
      if records.expiryDates.isEmpty then 0
      else
        let option_chain_data := current_expiry_rows records
        if option_chain_data.isEmpty then 0
        else
          let tabs := max_pain_tables option_chain_data
          if tabs.1.isEmpty then 0
          else (max_pain_scan (writer_loss tabs.1 tabs.2.1 tabs.2.2) tabs.1).2

/-- The loss formula as the specification words it: for candidate `k`,
`Σ (k - s) * callOI[s]` over strikes `s < k` plus `Σ (s - k) * putOI[s]`
over strikes `s > k`. -/
def claim_loss (strikes : List Int) (ce_oi pe_oi : List (Int × Int)) (k : Int) : Int :=
  ((strikes.filter (fun s => decide (s < k))).map (fun s => (k - s) * (dget ce_oi s).getD 0)).sum
    + ((strikes.filter (fun s => decide (k < s))).map (fun s => (s - k) * (dget pe_oi s).getD 0)).sum

/-! ## Database model and ingestion — `data_fetcher.process_and_save_oi_data`
and `data_fetcher.save_option_chain_data` -/

structure OIRow where
  symbol : String
  ts : Nat
  ltp : Int
  change_in_ltp : Int
  volume : Int
  future_oi : Int
  change_in_future_oi : Int
  call_oi : Int
  change_in_call_oi : Int
  put_oi : Int
  change_in_put_oi : Int
  oi_interpretation : String
  max_pain : Int
  buy_sell_signal : String
deriving DecidableEq

structure ChainRow where
  symbol : String
  ts : Nat
  expiry_date : String
  strike_price : Int
  call_oi : Int
  call_oi_change : Int
  call_volume : Int
  put_oi : Int
  put_oi_change : Int
  put_volume : Int
deriving DecidableEq

/-- The durable store: `stocks`, `oi_data` and `option_chain_data` tables,
each append-only, in surrogate-id order. -/
structure Db where
  stocks : List String
  oi : List OIRow
  chain : List ChainRow
deriving DecidableEq

/-- `db.query(Stock).filter(symbol).first()` followed by create-and-commit
when absent — the first block of both persistence functions. -/
def get_or_create_stock (db : Db) (symbol : String) : Db :=
  if symbol ∈ db.stocks then db else { db with stocks := db.stocks ++ [symbol] }

/-- Quadrant classification of `process_and_save_oi_data`. -/
def oi_interpretation_of (change_in_ltp change_in_call_oi : Int) : String :=
  if 0 < change_in_ltp ∧ 0 < change_in_call_oi then "Long Buildup"
  else if change_in_ltp < 0 ∧ 0 < change_in_call_oi then "Short Buildup"
  else if change_in_ltp < 0 ∧ change_in_call_oi < 0 then "Long Unwinding"
  else if 0 < change_in_ltp ∧ change_in_call_oi < 0 then "Short Covering"
  else ""

/-- `process_and_save_oi_data(symbol, data)`: get-or-create the stock row,
then validate (`'records' in data`, truthy `records`, non-null
`underlyingValue`) returning with nothing further recorded on failure;
on success compute max pain, totals from `filtered`, deltas against the
last `OIData` row of the stock (id-descending `.first()` = last appended),
classify, and append-and-commit one row.  `now` is the wall clock read by
`datetime.now()`.  Rows always carry a non-null `ltp`, so the source's
`last_oi_data.ltp is not None` guard is `last_oi_data` existing. -/
def process_and_save_oi_data (db : Db) (symbol : String) (data : Option NsePayload)
    (now : Nat) : Db :=
  let db1 := get_or_create_stock db symbol
  match data with
  | none => db1
  | some d =>
    match d.records with
    | none => db1
    | some records =>
      let max_pain := calculate_max_pain (some d)
      match records.underlyingValue with
      | none => db1
      | some underlying_value =>
        let total_call_oi := d.filteredCeTotOi.getD 0
        let total_put_oi := d.filteredPeTotOi.getD 0
        let vol_ce := d.filteredCeTotVol.getD 0
        let vol_pe := d.filteredPeTotVol.getD 0
        let last_oi_data := (db1.oi.filter (fun r => r.symbol = symbol)).getLast?
        let deltas :=
          match last_oi_data with
          | some last => (underlying_value - last.ltp,
                          total_call_oi - last.call_oi,
                          total_put_oi - last.put_oi)
          | none => (0, 0, 0)
        let row : OIRow :=
          { symbol := symbol
            ts := now
            ltp := underlying_value
            change_in_ltp := deltas.1
            volume := vol_ce + vol_pe
            future_oi := 0
            change_in_future_oi := 0
            call_oi := total_call_oi
            change_in_call_oi := deltas.2.1
            put_oi := total_put_oi
            change_in_put_oi := deltas.2.2
            oi_interpretation := oi_interpretation_of deltas.1 deltas.2.1
            max_pain := max_pain
            buy_sell_signal := "" }
        { db1 with oi := db1.oi ++ [row] }

/-- `save_option_chain_data(symbol, data)`: a separate session and a separate
commit — get-or-create the stock row, validate `records` and a non-empty
`expiryDates`, then append one `ChainRow` per current-expiry strike record
(skipping falsy strikes) and commit. -/
def save_option_chain_data (db : Db) (symbol : String) (data : Option NsePayload)
    (now : Nat) : Db :=
  let db1 := get_or_create_stock db symbol
  match data with
  | none => db1
  | some d =>
    match d.records with
    | none => db1
    | some records =>
      match records.expiryDates with
      | [] => db1
      | current_expiry :: _ =>
        let option_data := records.data.filter (fun r => r.expiryDate = current_expiry)
        let rows := option_data.filterMap (fun r =>
          match r.strikePrice with
          | none => none
          | some strike =>
            if strike = 0 then none
            else some
              { symbol := symbol
                ts := now
                expiry_date := current_expiry
                strike_price := strike
                call_oi := r.ceOpenInterest.getD 0
                call_oi_change := r.ceChangeOi.getD 0
                call_volume := r.ceVolume.getD 0
                put_oi := r.peOpenInterest.getD 0
                put_oi_change := r.peChangeOi.getD 0
                put_volume := r.peVolume.getD 0 : ChainRow })
        { db1 with chain := db1.chain ++ rows }

/-- The minimum-fields validation of `process_and_save_oi_data`: a truthy
payload with truthy `records` and a non-null `underlyingValue`. -/
def payload_has_min_fields : Option NsePayload → Bool
  | none => false
  | some d =>
    match d.records with
    | none => false
    | some records => records.underlyingValue.isSome

/-! ## Strike-level change chart — `dashboard.generate_oi_change_chart`

The data pipeline of lines 450-523: today's `OptionChainData` rows are
read id-descending; the first row fixes `current_expiry`;
`latest_by_strike[strike] = entry` is assigned for every current-expiry
row in descending order (so the binding that survives is the lowest-id,
i.e. oldest, row of each strike); all current-expiry rows are grouped
into `data_by_time[timestamp][strike]`; the loop over the sorted
timestamps keeps the last timestamp `≤ target` and breaks at the first
larger one, falling back to the earliest timestamp; finally each strike's
change is `current - past` when the past timestamp has the strike and
the row's own NSE-provided change fields otherwise.

All timestamps are minutes since midnight (see the header note), `now`
included.  The target is computed as `now - timedelta(minutes=N)` and then
compared only through its `"%H:%M"` rendering (`target_time_str`), so when
`N` exceeds the minutes elapsed since midnight the target wraps to a
late-evening time-of-day that is larger than every same-day timestamp —
the loop then keeps the latest available timestamp as the past key.  In
minutes this is `(now - N) mod 1440` over the integers.  The Full Day
button (`N ≥ 999999`) pins the target to midnight instead of wrapping. -/

/-- `target_time_str` in minutes: the time-of-day of `now - N`, wrapping
across midnight; midnight itself for the Full Day button. -/
def chart_target_time (now n_minutes : Nat) : Nat :=
  if 999999 ≤ n_minutes then 0
  else (((now : Int) - (n_minutes : Int)) % 1440).toNat

def past_key_scan (target : Nat) : List Nat → Option Nat → Option Nat
  | [], acc => acc
  | t :: rest, acc => if t ≤ target then past_key_scan target rest (some t) else acc

def generate_oi_change_core (rows : List ChainRow) (now n_minutes : Nat) :
    Option (List (Int × Int × Int)) :=
  let target_time := chart_target_time now n_minutes
  let latest_data := rows.reverse
  match latest_data with
  | [] => none
  | first :: _ =>
    let current_expiry := first.expiry_date
    let latest_by_strike := latest_data.foldl
      (fun m e => if e.expiry_date = current_expiry then (e.strike_price, e) :: m else m)
      ([] : List (Int × ChainRow))
    let past_data := rows.filter (fun e => e.expiry_date = current_expiry)
    let data_by_time := past_data.foldl
      (fun m e => (e.ts, (e.strike_price, e) :: (dget m e.ts).getD []) :: m)
      ([] : List (Nat × List (Int × ChainRow)))
    let available_times := (dkeys data_by_time).insertionSort (· ≤ ·)
    let scanned_key := past_key_scan target_time available_times none
    let past_time_key :=
      match scanned_key with
      | none => available_times.head?
      | some k => if (dget data_by_time k).isSome then some k else available_times.head?
    let past_by_strike :=
      match past_time_key with
      | some k => (dget data_by_time k).getD []
      | none => []
    let strikes := (dkeys latest_by_strike).insertionSort (· ≤ ·)
    some (strikes.map (fun s =>
      match dget latest_by_strike s with
      | none => (s, 0, 0)
      | some cur =>
        match dget past_by_strike s with
        | some past => (s, cur.call_oi - past.call_oi, cur.put_oi - past.put_oi)
        | none => (s, cur.call_oi_change, cur.put_oi_change)))

/-- The rolling-window delta exactly as the claim words it (comparison
definition written from the claim, for refutation): the earliest snapshot
with timestamp `≥ now - N`, the latest snapshot overall, their
`call_oi`/`put_oi` differences, and `(0, 0)` when either end is missing. -/
def rolling_delta_claim (rows : List ChainRow) (now n_minutes : Nat) : Int × Int :=
  let window := rows.filter (fun e => decide (now - n_minutes ≤ e.ts))
  let earliest := (window.insertionSort (fun a b => a.ts ≤ b.ts)).head?
  let latest := rows.getLast?
  match earliest, latest with
  | some e, some l => (l.call_oi - e.call_oi, l.put_oi - e.put_oi)
  | _, _ => (0, 0)

/-! ## Scheduler cycle boundary — the outer loop of `app.background_scan_loop`

One iteration of `while True`: the `try` body first runs
`db = SessionLocal()`, then a nested `try/except` that always assigns the
local `runtime_interval` (meta value or the `interval_seconds` fallback),
then the rest of the cycle.  The outer `except Exception` catches any
exception of the body, after which the sleep step evaluates
`max(0, runtime_interval - elapsed)` — reading the local
`runtime_interval`, which on the very first iteration may never have been
assigned.  The embedding threads that local as an `Option Int`
(`none` = not yet assigned; locals persist across loop iterations) and
models reading it unassigned as the fatal `Except.error ()`
(`UnboundLocalError`, raised outside every handler). -/

structure CycleEnv where
  session_local_raises : Bool
  meta_scan_interval : Option Int
  body_raises : Bool
deriving DecidableEq

/-- The `try` body of one cycle: final value of the `runtime_interval` local,
and whether an exception propagated to the outer `except`. -/
def background_scan_try (interval_seconds : Int) (runtime_interval : Option Int)
    (env : CycleEnv) : Option Int × Bool :=
  if env.session_local_raises then (runtime_interval, true)
  else
    let ri :=
      match env.meta_scan_interval with
      | some v => v
      | none => interval_seconds
    (some ri, env.body_raises)

/-- One full cycle including the sleep step: `Except.error ()` is the
uncaught `UnboundLocalError` that kills the loop. -/
def background_scan_cycle (interval_seconds : Int) (runtime_interval : Option Int)
    (env : CycleEnv) : Except Unit Int :=
  match (background_scan_try interval_seconds runtime_interval env).1 with
  | none => Except.error ()
  | some ri => Except.ok ri

/-- The loop over a finite schedule of cycle environments. -/
def background_scan_run (interval_seconds : Int) :
    Option Int → List CycleEnv → Except Unit (Option Int)
  | runtime_interval, [] => Except.ok runtime_interval
  | runtime_interval, env :: rest =>
    match background_scan_cycle interval_seconds runtime_interval env with
    | Except.error e => Except.error e
    | Except.ok v => background_scan_run interval_seconds (some v) rest

/-! ## Concrete payloads and rows used by counterexamples and witnesses -/

/-- A minimal structurally-complete payload: one current-expiry strike. -/
def full_payload_one_strike : NsePayload :=
  { records := some
      { expiryDates := ["30-Jan-2026"]
        data := [{ strikePrice := some 100, expiryDate := "30-Jan-2026",
                   ceOpenInterest := some 5, ceChangeOi := some 1, ceVolume := some 2,
                   peOpenInterest := some 7, peChangeOi := some 3, peVolume := some 4 }]
        underlyingValue := some 102 }
    filteredCeTotOi := some 50
    filteredCeTotVol := some 60
    filteredPeTotOi := some 70
    filteredPeTotVol := some 80 }

/-- A payload whose `records` key is absent (fails the minimum-fields check). -/
def payload_no_records : NsePayload :=
  { records := none
    filteredCeTotOi := none
    filteredCeTotVol := none
    filteredPeTotOi := none
    filteredPeTotVol := none }

/-- Attempt oracle that raises on attempts 1-3 and succeeds on attempt 4. -/
def three_failures_then_ok : Nat → AttemptOutcome Nat Nat :=
  fun i => if i ≤ 3 then AttemptOutcome.exc i else AttemptOutcome.ok 42

/-- Attempt oracle where every attempt returns a non-200 status outside
400-599 (say 204): `raise_for_status` never raises, nothing is recorded. -/
def four_silent : Nat → AttemptOutcome Nat Nat :=
  fun _ => AttemptOutcome.silent

/-- Attempt 1 raises (cause `11`); attempts 2-4 return silent non-200
statuses, so the cause recorded first stays the recorded one. -/
def stale_cause_attempts : Nat → AttemptOutcome Nat Nat :=
  fun i => if i = 1 then AttemptOutcome.exc 11 else AttemptOutcome.silent

/-- Two strikes, listed in descending strike order, tying on total writer
loss: strike 5 carries call OI 1, strike 10 carries put OI 1, so each
candidate's loss is 5. -/
def desc_tie_records : NseRecords :=
  { expiryDates := ["06-Feb-2026"]
    data :=
      [{ strikePrice := some 10, expiryDate := "06-Feb-2026",
         ceOpenInterest := none, ceChangeOi := none, ceVolume := none,
         peOpenInterest := some 1, peChangeOi := none, peVolume := none },
       { strikePrice := some 5, expiryDate := "06-Feb-2026",
         ceOpenInterest := some 1, ceChangeOi := none, ceVolume := none,
         peOpenInterest := none, peChangeOi := none, peVolume := none }]
    underlyingValue := some 7 }

def desc_tie_payload : NsePayload :=
  { records := some desc_tie_records
    filteredCeTotOi := none
    filteredCeTotVol := none
    filteredPeTotOi := none
    filteredPeTotVol := none }

/-- The same two tying strikes listed in ascending strike order. -/
def asc_tie_records : NseRecords :=
  { expiryDates := ["06-Feb-2026"]
    data :=
      [{ strikePrice := some 5, expiryDate := "06-Feb-2026",
         ceOpenInterest := some 1, ceChangeOi := none, ceVolume := none,
         peOpenInterest := none, peChangeOi := none, peVolume := none },
       { strikePrice := some 10, expiryDate := "06-Feb-2026",
         ceOpenInterest := none, ceChangeOi := none, ceVolume := none,
         peOpenInterest := some 1, peChangeOi := none, peVolume := none }]
    underlyingValue := some 7 }

def asc_tie_payload : NsePayload :=
  { records := some asc_tie_records
    filteredCeTotOi := none
    filteredCeTotVol := none
    filteredPeTotOi := none
    filteredPeTotVol := none }

/-- Strike-table row at 100 minutes (the earlier snapshot of strike 50). -/
def chart_row_early : ChainRow :=
  { symbol := "NIFTY", ts := 100, expiry_date := "30-Jan-2026", strike_price := 50,
    call_oi := 100, call_oi_change := 7, call_volume := 0,
    put_oi := 200, put_oi_change := 9, put_volume := 0 }

/-- Strike-table row at 110 minutes (the later snapshot of strike 50). -/
def chart_row_late : ChainRow :=
  { symbol := "NIFTY", ts := 110, expiry_date := "30-Jan-2026", strike_price := 50,
    call_oi := 150, call_oi_change := 5, call_volume := 0,
    put_oi := 260, put_oi_change := 6, put_volume := 0 }

/-! ## Theorems -/

theorem get_or_create_stock_oi (db : Db) (symbol : String) :
    (get_or_create_stock db symbol).oi = db.oi ∧
    (get_or_create_stock db symbol).chain = db.chain := by
  unfold get_or_create_stock
  split <;> exact ⟨rfl, rfl⟩

/-- Claim C1, counterexample: two successive `fetch_oi_data` calls for the
same instrument 30 seconds apart (inside any 60-second window) issue two
upstream fetches, not at most one — the source has no snapshot cache. -/
theorem fetch_cache_refuted :
    ¬ ((fetch_oi_data (α := Unit) (fun _ _ _ => AttemptOutcome.exc ())
          (fetch_oi_data (α := Unit) (fun _ _ _ => AttemptOutcome.exc ()) [] "NIFTY" 0).1
          "NIFTY" 30).1.length ≤ 1)
      ∧ 30 - 0 < 60 := by
  constructor
  · decide
  · decide

/-- Claim C1, amended: `fetch_oi_data` consults no cache — every call,
whatever its timing relative to earlier calls for the same instrument,
issues exactly one upstream fetch, so a schedule of `k` calls issues `k`
upstream fetches. -/
theorem fetch_always_calls_upstream {α : Type}
    (attempts : String → Nat → Nat → AttemptOutcome Unit α)
    (upstream_log schedule : List (String × Nat)) :
    fetch_oi_data_runs (α := α) attempts upstream_log schedule
      = upstream_log ++ schedule := by
  induction schedule generalizing upstream_log with
  | nil => simp [fetch_oi_data_runs]
  | cons c rest ih =>
    obtain ⟨symbol, t⟩ := c
    simp [fetch_oi_data_runs, fetch_oi_data, ih]

theorem retry_go_agree {ε α : Type} (f g : Nat → AttemptOutcome ε α) :
    ∀ (fuel a : Nat) (last : Option ε),
      (∀ i, a ≤ i → i < a + fuel → f i = g i) →
      retry_go f a fuel last = retry_go g a fuel last := by
  intro fuel
  induction fuel with
  | zero => intro a last _; rfl
  | succ n ih =>
    intro a last h
    have h0 : f a = g a := h a le_rfl (by omega)
    simp only [retry_go, ← h0]
    cases hfa : f a with
    | ok p => rfl
    | exc e => exact ih (a + 1) (some e) (fun i h1 h2 => h i (by omega) (by omega))
    | silent => exact ih (a + 1) last (fun i h1 h2 => h i (by omega) (by omega))

theorem retry_go_success {ε α : Type} (f : Nat → AttemptOutcome ε α) (k : Nat) (p : α)
    (hk : f k = AttemptOutcome.ok p) :
    ∀ (fuel a : Nat) (last : Option ε),
      a ≤ k → k < a + fuel →
      (∀ i, a ≤ i → i < k → attempt_fails (f i) = true) →
      retry_go f a fuel last = Except.ok p := by
  intro fuel
  induction fuel with
  | zero => intro a last h1 h2 _; omega
  | succ n ih =>
    intro a last h1 h2 hfail
    by_cases hak : a = k
    · subst hak
      simp [retry_go, hk]
    · have hfa := hfail a le_rfl (by omega)
      cases hfa2 : f a with
      | ok p2 =>
        rw [hfa2] at hfa
        simp [attempt_fails] at hfa
      | exc e2 =>
        simp only [retry_go, hfa2]
        exact ih (a + 1) (some e2) (by omega) (by omega)
          (fun i hi1 hi2 => hfail i (by omega) hi2)
      | silent =>
        simp only [retry_go, hfa2]
        exact ih (a + 1) last (by omega) (by omega)
          (fun i hi1 hi2 => hfail i (by omega) hi2)

theorem retry_go_all_silent {ε α : Type} (f : Nat → AttemptOutcome ε α) :
    ∀ (fuel a : Nat) (last : Option ε),
      (∀ i, a ≤ i → i < a + fuel → f i = AttemptOutcome.silent) →
      retry_go f a fuel last = Except.error last := by
  intro fuel
  induction fuel with
  | zero => intro a last _; rfl
  | succ n ih =>
    intro a last h
    have ha := h a le_rfl (by omega)
    simp only [retry_go, ha]
    exact ih (a + 1) last (fun i h1 h2 => h i (by omega) (by omega))

theorem retry_go_last_exc {ε α : Type} (f : Nat → AttemptOutcome ε α) (j : Nat) (e : ε)
    (hj : f j = AttemptOutcome.exc e) :
    ∀ (fuel a : Nat) (last : Option ε),
      a ≤ j → j < a + fuel →
      (∀ i, a ≤ i → i < j → attempt_fails (f i) = true) →
      (∀ i, j < i → i < a + fuel → f i = AttemptOutcome.silent) →
      retry_go f a fuel last = Except.error (some e) := by
  intro fuel
  induction fuel with
  | zero => intro a last h1 h2 _ _; omega
  | succ n ih =>
    intro a last h1 h2 hfail hsilent
    by_cases haj : a = j
    · subst haj
      simp only [retry_go, hj]
      exact retry_go_all_silent f n (a + 1) (some e)
        (fun i hi1 hi2 => hsilent i (by omega) (by omega))
    · have hfa := hfail a le_rfl (by omega)
      cases hfa2 : f a with
      | ok p2 =>
        rw [hfa2] at hfa
        simp [attempt_fails] at hfa
      | exc e2 =>
        simp only [retry_go, hfa2]
        exact ih (a + 1) (some e2) (by omega) (by omega)
          (fun i hi1 hi2 => hfail i (by omega) hi2)
          (fun i hi1 hi2 => hsilent i hi1 (by omega))
      | silent =>
        simp only [retry_go, hfa2]
        exact ih (a + 1) last (by omega) (by omega)
          (fun i hi1 hi2 => hfail i (by omega) hi2)
          (fun i hi1 hi2 => hsilent i hi1 (by omega))

/-- Claim C5, amended: the fetch makes at most 4 attempts (its result is
determined by attempts 1-4 alone); the first attempt returning status 200
has its payload returned with no visible error, including after any mix of
earlier failures; when all 4 attempts fail, the call re-raises the most
recently *recorded* exception — the last attempt that actually raised,
which silent non-200 failures after it do not update — and when no attempt
raised at all (every failure a non-200 status outside 400-599), `raise
last_exc` re-raises `None`, escaping as a `TypeError` (`Except.error
none`) rather than as any fetch error. -/
theorem requests_get_with_retry_contract {ε α : Type}
    (f g : Nat → AttemptOutcome ε α) (k j : Nat) (p : α) (e : ε) :
    ((∀ i, 1 ≤ i → i ≤ 4 → f i = g i) →
        requests_get_with_retry f 4 = requests_get_with_retry g 4) ∧
    ((1 ≤ k ∧ k ≤ 4 ∧ (∀ i, 1 ≤ i → i < k → attempt_fails (f i) = true) ∧
        f k = AttemptOutcome.ok p) →
      requests_get_with_retry f 4 = Except.ok p) ∧
    ((1 ≤ j ∧ j ≤ 4 ∧ (∀ i, 1 ≤ i → i < j → attempt_fails (f i) = true) ∧
        f j = AttemptOutcome.exc e ∧
        (∀ i, j < i → i ≤ 4 → f i = AttemptOutcome.silent)) →
      requests_get_with_retry f 4 = Except.error (some e)) ∧
    ((∀ i, 1 ≤ i → i ≤ 4 → f i = AttemptOutcome.silent) →
      requests_get_with_retry f 4 = Except.error none) := by
  refine ⟨?_, ?_, ?_, ?_⟩
  · intro hag
    exact retry_go_agree f g 4 1 none (fun i h1 h2 => hag i h1 (by omega))
  · rintro ⟨h1, h2, hfail, hk⟩
    exact retry_go_success f k p hk 4 1 none h1 (by omega) hfail
  · rintro ⟨h1, h2, hfail, hj, hsilent⟩
    exact retry_go_last_exc f j e hj 4 1 none h1 (by omega) hfail
      (fun i hi1 hi2 => hsilent i hi1 (by omega))
  · intro hall
    exact retry_go_all_silent f 4 1 none (fun i h1 h2 => hall i h1 (by omega))

/-- Claim C5, counterexample: a response whose status is neither 200 nor in
400-599 (e.g. 204) makes `raise_for_status` return without raising, so the
attempt records nothing.  Four such attempts exhaust the loop with
`last_exc` still `None`, and `raise last_exc` raises a `TypeError`
(`Except.error none`) — an error of another kind, carrying no underlying
cause — refuting the claim's "surfaces a FetchFailed error carrying the
last underlying cause and raises nothing of any other kind".  And when
attempt 1 raised but attempts 2-4 failed silently, the surfaced cause is
the stale attempt-1 exception, not one from the last failing attempt. -/
theorem retry_silent_path_cex :
    requests_get_with_retry four_silent 4 = Except.error none ∧
    requests_get_with_retry stale_cause_attempts 4 = Except.error (some 11) := by
  refine ⟨rfl, rfl⟩

/-- Claim C5 witness: three raising failures followed by a success on the
4th attempt return the successful payload. -/
theorem requests_get_with_retry_contract_witness :
    requests_get_with_retry three_failures_then_ok 4 = Except.ok 42 :=
  (requests_get_with_retry_contract three_failures_then_ok three_failures_then_ok
      4 1 42 0).2.1
    ⟨by omega, by omega,
     fun i _ h2 => by
       have h3 : i ≤ 3 := by omega
       simp [three_failures_then_ok, h3, attempt_fails],
     by simp [three_failures_then_ok]⟩

/-- Claim C6 (code bug): an exception raised by the very first statement of
the very first cycle (`db = SessionLocal()`) is caught by the outer
`except`, but the sleep step then reads the never-assigned local
`runtime_interval` and raises `UnboundLocalError` outside every handler,
terminating the background scan loop — a single failing cycle can kill it.
Once any cycle has assigned the local (second conjunct), every later
cycle survives whatever its body does. -/
theorem background_scan_loop_first_cycle_crash :
    background_scan_run 20 none
        [{ session_local_raises := true, meta_scan_interval := none, body_raises := false }]
      = Except.error () ∧
    ∀ (s r : Int) (env : CycleEnv), ∃ v,
      background_scan_cycle s (some r) env = Except.ok v := by
  constructor
  · rfl
  · intro s r env
    obtain ⟨sl, mi, br⟩ := env
    cases sl
    · cases mi <;> exact ⟨_, rfl⟩
    · exact ⟨r, rfl⟩

/-- Claim C7, counterexample: ingesting an invalid payload (missing
`records`) for a previously-unseen symbol writes no snapshot row but does
create the Instrument (stock) row — creation happens before validation. -/
theorem ingest_invalid_creates_stock_cex :
    process_and_save_oi_data ⟨[], [], []⟩ "RELIANCE" none 0
        = ⟨["RELIANCE"], [], []⟩
      ∧ "RELIANCE" ∉ (⟨[], [], []⟩ : Db).stocks := by
  exact ⟨rfl, by simp⟩

/-- Claim C7, amended: on a payload failing the minimum-fields validation,
ingestion writes no Snapshot row and no StrikeSnapshot row, but the stock
row is get-or-created before validation, so a previously-unseen symbol
gains an Instrument row even on failed ingestion. -/
theorem ingest_invalid_records_nothing_but_stock (db : Db) (symbol : String)
    (data : Option NsePayload) (now : Nat)
    (h : payload_has_min_fields data = false) :
    (process_and_save_oi_data db symbol data now).oi = db.oi ∧
    (process_and_save_oi_data db symbol data now).chain = db.chain ∧
    (process_and_save_oi_data db symbol data now).stocks
      = (get_or_create_stock db symbol).stocks := by
  cases data with
  | none =>
    simp [process_and_save_oi_data, (get_or_create_stock_oi db symbol).1,
      (get_or_create_stock_oi db symbol).2]
  | some d =>
    cases hr : d.records with
    | none =>
      simp [process_and_save_oi_data, hr, (get_or_create_stock_oi db symbol).1,
        (get_or_create_stock_oi db symbol).2]
    | some records =>
      cases huv : records.underlyingValue with
      | none =>
        simp [process_and_save_oi_data, hr, huv, (get_or_create_stock_oi db symbol).1,
          (get_or_create_stock_oi db symbol).2]
      | some uv =>
        exfalso
        simp [payload_has_min_fields, hr, huv] at h

/-- Claim C7 witness: a concrete invalid payload for a fresh symbol leaves
the snapshot and strike tables unchanged. -/
theorem ingest_invalid_records_nothing_but_stock_witness :
    (process_and_save_oi_data ⟨["NIFTY"], [], []⟩ "TCS" (some payload_no_records) 5).oi
        = (⟨["NIFTY"], [], []⟩ : Db).oi ∧
    (process_and_save_oi_data ⟨["NIFTY"], [], []⟩ "TCS" (some payload_no_records) 5).chain
        = (⟨["NIFTY"], [], []⟩ : Db).chain ∧
    (process_and_save_oi_data ⟨["NIFTY"], [], []⟩ "TCS" (some payload_no_records) 5).stocks
        = (get_or_create_stock ⟨["NIFTY"], [], []⟩ "TCS").stocks :=
  ingest_invalid_records_nothing_but_stock ⟨["NIFTY"], [], []⟩ "TCS"
    (some payload_no_records) 5 rfl

/-- Claim C8, counterexample: after `process_and_save_oi_data` commits (its
own session, its own `db.commit()`), and before/without the separate
`save_option_chain_data` transaction, the durable state holds the
instrument's Snapshot row and none of its StrikeSnapshot rows — exactly
the state that persists when the strike-level step fails. -/
theorem snapshot_without_strikes_cex :
    (∃ r ∈ (process_and_save_oi_data ⟨[], [], []⟩ "NIFTY"
        (some full_payload_one_strike) 600).oi, r.symbol = "NIFTY") ∧
    (process_and_save_oi_data ⟨[], [], []⟩ "NIFTY"
        (some full_payload_one_strike) 600).chain = [] := by
  constructor
  · decide
  · rfl

/-- Claim C8, amended: snapshot persistence and strike-level persistence are
two separate transactions.  Ingesting any payload passing the
minimum-fields check first commits exactly one new Snapshot row for the
symbol while leaving the strike table unchanged (this intermediate state
is durable and observable, and is final whenever the strike step fails);
the subsequent strike-level transaction never touches the snapshot table. -/
theorem snapshot_strike_two_transactions (db : Db) (symbol : String)
    (data : Option NsePayload) (now : Nat)
    (h : payload_has_min_fields data = true) :
    (process_and_save_oi_data db symbol data now).oi.length = db.oi.length + 1 ∧
    (process_and_save_oi_data db symbol data now).chain = db.chain ∧
    ((process_and_save_oi_data db symbol data now).oi.getLast?).map OIRow.symbol
      = some symbol ∧
    ∀ now2, (save_option_chain_data (process_and_save_oi_data db symbol data now)
        symbol data now2).oi = (process_and_save_oi_data db symbol data now).oi := by
  cases data with
  | none => simp [payload_has_min_fields] at h
  | some d =>
    cases hr : d.records with
    | none => simp [payload_has_min_fields, hr] at h
    | some records =>
      cases huv : records.underlyingValue with
      | none => simp [payload_has_min_fields, hr, huv] at h
      | some uv =>
        have hoi := (get_or_create_stock_oi db symbol).1
        have hch := (get_or_create_stock_oi db symbol).2
        refine ⟨?_, ?_, ?_, ?_⟩
        · simp [process_and_save_oi_data, hr, huv, hoi]
        · simp [process_and_save_oi_data, hr, huv, hch]
        · simp [process_and_save_oi_data, hr, huv]
        · intro now2
          set mid := process_and_save_oi_data db symbol (some d) now with hmid
          have hmoi := (get_or_create_stock_oi mid symbol).1
          cases he : records.expiryDates with
          | nil => simp [save_option_chain_data, hr, he, hmoi]
          | cons y ys => simp [save_option_chain_data, hr, he, hmoi]

/-- Claim C8 witness: the amended statement at a concrete empty database and
a concrete one-strike payload. -/
theorem snapshot_strike_two_transactions_witness :
    (process_and_save_oi_data ⟨[], [], []⟩ "NIFTY"
        (some full_payload_one_strike) 600).oi.length
      = (⟨[], [], []⟩ : Db).oi.length + 1 ∧
    (process_and_save_oi_data ⟨[], [], []⟩ "NIFTY"
        (some full_payload_one_strike) 600).chain = (⟨[], [], []⟩ : Db).chain ∧
    ((process_and_save_oi_data ⟨[], [], []⟩ "NIFTY"
        (some full_payload_one_strike) 600).oi.getLast?).map OIRow.symbol
      = some "NIFTY" ∧
    ∀ now2, (save_option_chain_data (process_and_save_oi_data ⟨[], [], []⟩ "NIFTY"
        (some full_payload_one_strike) 600) "NIFTY" (some full_payload_one_strike)
        now2).oi
      = (process_and_save_oi_data ⟨[], [], []⟩ "NIFTY"
          (some full_payload_one_strike) 600).oi :=
  snapshot_strike_two_transactions ⟨[], [], []⟩ "NIFTY"
    (some full_payload_one_strike) 600 rfl

theorem scan_process_foldl (batch : List (Option String)) :
    ∀ (n : Nat) (l : List String),
      batch.foldl
          (fun acc st =>
            match st with
            | none => acc
            | some s => if s = "" then acc else (acc.1 + 1, acc.2 ++ [s]))
          (n, l)
        = (n + (batch.filterMap sym_filter).length, l ++ batch.filterMap sym_filter) := by
  induction batch with
  | nil => intro n l; simp [sym_filter]
  | cons st rest ih =>
    intro n l
    cases st with
    | none => simp [sym_filter, ih n l]
    | some s =>
      by_cases hs : s = ""
      · simp [sym_filter, hs, ih n l]
      · simp only [List.foldl_cons, List.filterMap_cons, sym_filter, if_neg hs]
        rw [ih (n + 1) (l ++ [s])]
        simp only [Prod.mk.injEq, List.length_cons]
        exact ⟨by omega, by simp⟩

/-- Claim C10: a batch member whose symbol is `None` or empty is skipped
before the fetch/persist block and excluded from the `processed` count, so
the committed cursor advance equals the number of batch members with
non-empty symbols — which can be strictly smaller than the batch length. -/
theorem batch_skip_empty_symbols (batch : List (Option String)) (total start_idx : Nat) :
    (scan_process batch).1 = (batch.filterMap sym_filter).length ∧
    (scan_process batch).2 = batch.filterMap sym_filter ∧
    new_scan_index total start_idx (scan_process batch).1
      = (start_idx + (batch.filterMap sym_filter).length) % total ∧
    (scan_process [some "A", none, some ""]).1
      < ([some "A", none, some ""] : List (Option String)).length := by
  have h := scan_process_foldl batch 0 []
  refine ⟨?_, ?_, ?_, ?_⟩
  · simp [scan_process, h]
  · simp [scan_process, h]
  · simp [scan_process, h, new_scan_index]
  · decide

theorem take_range' : ∀ (n m s : ℕ), (List.range' s n).take m = List.range' s (min m n) := by
  intro n
  induction n with
  | zero => intro m s; simp
  | succ k ih =>
    intro m s
    cases m with
    | zero => simp
    | succ j =>
      rw [List.range'_succ, List.take_succ_cons, ih j (s + 1)]
      have : min (j + 1) (k + 1) = min j k + 1 := by omega
      rw [this, List.range'_succ]

theorem drop_range' : ∀ (n m s : ℕ), (List.range' s n).drop m = List.range' (s + m) (n - m) := by
  intro n
  induction n with
  | zero => intro m s; simp
  | succ k ih =>
    intro m s
    cases m with
    | zero => simp
    | succ j =>
      rw [List.range'_succ, List.drop_succ_cons, ih j (s + 1)]
      have h1 : s + 1 + j = s + (j + 1) := by omega
      have h2 : k - j = k + 1 - (j + 1) := by omega
      rw [h1, h2]

theorem range_drop (n m : ℕ) : (List.range n).drop m = List.range' m (n - m) := by
  rw [List.range_eq_range', drop_range', Nat.zero_add]

theorem range_take (n m : ℕ) : (List.range n).take m = List.range' 0 (min m n) := by
  rw [List.range_eq_range', take_range']

/-- One cycle's pre-shuffle batch over the id-ordered index list is the
consecutive run of `scan_len` indices starting at `c % T`, modulo `T`. -/
theorem scan_batch_slice_range (T B c : Nat) (hT : 0 < T) :
    scan_batch_slice (List.range T) B c
      = (List.range (scan_len T B c)).map (fun i => (c % T + i) % T) := by
  have hs : c % T < T := Nat.mod_lt c hT
  unfold scan_batch_slice scan_len
  simp only [List.length_range]
  split
  case isTrue h =>
    rw [range_drop, take_range']
    have hm : min B (T - c % T) = B := by omega
    rw [hm, List.range'_eq_map_range]
    apply List.map_congr_left
    intro a ha
    have ha2 : a < B := List.mem_range.mp ha
    exact (Nat.mod_eq_of_lt (by omega)).symm
  case isFalse h =>
    rw [range_drop, range_take, List.range_add, List.map_append, List.map_map]
    congr 1
    · rw [List.range'_eq_map_range]
      apply List.map_congr_left
      intro a ha
      have ha2 : a < T - c % T := List.mem_range.mp ha
      exact (Nat.mod_eq_of_lt (by omega)).symm
    · rw [← List.range_eq_range']
      symm
      have hid : ∀ a ∈ List.range (min (c % T + B - T) T),
          ((fun i => (c % T + i) % T) ∘ (fun x => T - c % T + x)) a = a := by
        intro a ha
        have ha2 : a < min (c % T + B - T) T := List.mem_range.mp ha
        simp only [Function.comp]
        have h1 : c % T + (T - c % T + a) = T + a := by omega
        rw [h1, Nat.add_mod_left, Nat.mod_eq_of_lt (by omega)]
      calc (List.range (min (c % T + B - T) T)).map _
          = (List.range (min (c % T + B - T) T)).map id := List.map_congr_left hid
        _ = List.range (min (c % T + B - T) T) := List.map_id _

theorem scan_batch_slice_length (T B c : Nat) (hT : 0 < T) :
    (scan_batch_slice (List.range T) B c).length = scan_len T B c := by
  rw [scan_batch_slice_range T B c hT]
  simp

/-- Across consecutive cycles the visit sequence is one long consecutive run
of indices modulo `T` starting at `c % T`. -/
theorem scan_visits_eq (T B : Nat) (hT : 0 < T) :
    ∀ (k c : Nat),
      scan_visits T B c k
        = (List.range (scan_total_len T B c k)).map (fun i => (c % T + i) % T) := by
  intro k
  induction k with
  | zero => intro c; simp [scan_visits, scan_total_len]
  | succ n ih =>
    intro c
    show scan_batch_slice (List.range T) B c
        ++ scan_visits T B
            (new_scan_index T (c % T) (scan_batch_slice (List.range T) B c).length) n
      = _
    rw [scan_batch_slice_length T B c hT, scan_batch_slice_range T B c hT, ih]
    show _ = (List.range (scan_total_len T B c (n + 1))).map _
    have hst : scan_total_len T B c (n + 1)
        = scan_len T B c
            + scan_total_len T B (new_scan_index T (c % T) (scan_len T B c)) n := rfl
    rw [hst, List.range_add, List.map_append, List.map_map]
    congr 1
    apply List.map_congr_left
    intro a _
    simp only [Function.comp, new_scan_index]
    rw [Nat.mod_mod_of_dvd _ dvd_rfl, Nat.mod_add_mod, Nat.add_assoc]

theorem scan_len_ge (T B c : Nat) (hT : 0 < T) : min B T ≤ scan_len T B c := by
  have hs : c % T < T := Nat.mod_lt c hT
  unfold scan_len
  split <;> omega

theorem scan_total_len_ge (T B : Nat) (hT : 0 < T) :
    ∀ (k c : Nat), k * min B T ≤ scan_total_len T B c k := by
  intro k
  induction k with
  | zero => intro c; simp [scan_total_len]
  | succ n ih =>
    intro c
    have h1 := scan_len_ge T B c hT
    have h2 := ih (new_scan_index T (c % T) (scan_len T B c))
    have h3 : (n + 1) * min B T = min B T + n * min B T := by ring
    show _ ≤ scan_len T B c
        + scan_total_len T B (new_scan_index T (c % T) (scan_len T B c)) n
    omega

theorem ceil_cycles_mul_ge (T B : Nat) (hT : 0 < T) (hB : 0 < B) :
    T ≤ ceil_cycles T B * min B T := by
  by_cases h : B ≤ T
  · have hm : min B T = B := by omega
    have h1 : ceil_cycles T B = (T - 1) / B + 1 := by
      unfold ceil_cycles
      have h2 : T + B - 1 = T - 1 + B := by omega
      rw [h2, Nat.add_div_right _ hB]
    rw [hm, h1]
    have hlt := Nat.lt_mul_div_succ (T - 1) hB
    calc T = T - 1 + 1 := by omega
      _ ≤ B * ((T - 1) / B + 1) := hlt
      _ = ((T - 1) / B + 1) * B := by ring
  · have hm : min B T = T := by omega
    rw [hm]
    have hc : 1 ≤ ceil_cycles T B := by
      unfold ceil_cycles
      rw [Nat.le_div_iff_mul_le hB]
      omega
    calc T = 1 * T := by ring
      _ ≤ ceil_cycles T B * T := Nat.mul_le_mul_right T hc

/-- Claim C2: for every instrument count `T ≥ 1`, batch size `B ≥ 1` and
starting cursor, the pre-shuffle batch-selection step iterated for
`ceil(T/B)` consecutive cycles visits every instrument index exactly once
before any index is visited a second time: the first `T` visits are
pairwise distinct and cover every index below `T`. -/
theorem rotation_fairness (T B c : Nat) (hT : 1 ≤ T) (hB : 1 ≤ B) :
    T ≤ (scan_visits T B c (ceil_cycles T B)).length ∧
    ((scan_visits T B c (ceil_cycles T B)).take T).Nodup ∧
    ∀ m, m < T → m ∈ (scan_visits T B c (ceil_cycles T B)).take T := by
  have hT0 : 0 < T := hT
  have hlen : T ≤ scan_total_len T B c (ceil_cycles T B) :=
    le_trans (ceil_cycles_mul_ge T B hT0 hB) (scan_total_len_ge T B hT0 _ c)
  have hv := scan_visits_eq T B hT0 (ceil_cycles T B) c
  have hs : c % T < T := Nat.mod_lt c hT0
  refine ⟨?_, ?_, ?_⟩
  · rw [hv]; simpa using hlen
  · rw [hv, ← List.map_take, List.take_range, Nat.min_eq_left hlen]
    apply List.Nodup.map_on _ (List.nodup_range T)
    intro i hi j hj hij
    have hi2 : i < T := List.mem_range.mp hi
    have hj2 : j < T := List.mem_range.mp hj
    have : i % T = j % T := Nat.ModEq.add_left_cancel' (c % T) hij
    rwa [Nat.mod_eq_of_lt hi2, Nat.mod_eq_of_lt hj2] at this
  · intro m hm
    rw [hv, ← List.map_take, List.take_range, Nat.min_eq_left hlen]
    refine List.mem_map.mpr ⟨(m + T - c % T) % T, List.mem_range.mpr (Nat.mod_lt _ hT0), ?_⟩
    rw [Nat.add_mod_mod]
    have h1 : c % T + (m + T - c % T) = m + T := by omega
    rw [h1, Nat.add_mod_right, Nat.mod_eq_of_lt hm]

/-- Claim C2 witness: `T = 5`, `B = 2`, cursor `0`; the three cycles visit
`[0,1], [2,3], [4,0]` and the first five visits are `0..4`, each once. -/
theorem rotation_fairness_witness :
    scan_visits 5 2 0 (ceil_cycles 5 2) = [0, 1, 2, 3, 4, 0] ∧
    (5 ≤ (scan_visits 5 2 0 (ceil_cycles 5 2)).length ∧
     ((scan_visits 5 2 0 (ceil_cycles 5 2)).take 5).Nodup ∧
     ∀ m, m < 5 → m ∈ (scan_visits 5 2 0 (ceil_cycles 5 2)).take 5) :=
  ⟨by decide, rotation_fairness 5 2 0 (by decide) (by decide)⟩

/-- Claim C3, counterexample: with `T = 3`, `B = 5`, cursor `2` the
pre-shuffle batch is `[2, 0, 1, 2]` — four members with index `2` selected
twice — not `min(B, T) = 3` distinct instruments as claimed. -/
theorem batch_selection_overrun_cex :
    scan_batch_slice (List.range 3) 5 2 = [2, 0, 1, 2] ∧
    (scan_batch_slice (List.range 3) 5 2).length ≠ min 5 3 ∧
    ¬ (scan_batch_slice (List.range 3) 5 2).Nodup := by
  refine ⟨by decide, by decide, by decide⟩

/-- Claim C3, amended: whenever `B ≤ T` (the configured batch size does not
exceed the instrument count), one cycle selects a pre-shuffle batch of
exactly `min(B, T) = B` instruments, each at most once, taken consecutively
from the id-ordered instrument list starting at index `c mod T` with
wraparound, and commits the cursor to `(start + processed) mod T`, which is
`(c mod T + B) mod T` when every batch member is processed.  For `B > T`
the wrap-around query repeats instruments (see the counterexample). -/
theorem batch_selection_spec (T B c : Nat) (hT : 1 ≤ T) (hB : B ≤ T) :
    (scan_batch_slice (List.range T) B c).length = min B T ∧
    (scan_batch_slice (List.range T) B c).Nodup ∧
    scan_batch_slice (List.range T) B c
      = (List.range B).map (fun i => (c % T + i) % T) ∧
    new_scan_index T (c % T) (scan_batch_slice (List.range T) B c).length
      = (c % T + B) % T := by
  have hT0 : 0 < T := hT
  have hs : c % T < T := Nat.mod_lt c hT0
  have hlenB : scan_len T B c = B := by
    unfold scan_len
    split <;> omega
  have hr := scan_batch_slice_range T B c hT0
  rw [hlenB] at hr
  refine ⟨?_, ?_, hr, ?_⟩
  · rw [hr]
    simp only [List.length_map, List.length_range]
    omega
  · rw [hr]
    apply List.Nodup.map_on _ (List.nodup_range B)
    intro i hi j hj hij
    have hi2 : i < B := List.mem_range.mp hi
    have hj2 : j < B := List.mem_range.mp hj
    have : i % T = j % T := Nat.ModEq.add_left_cancel' (c % T) hij
    rwa [Nat.mod_eq_of_lt (by omega), Nat.mod_eq_of_lt (by omega)] at this
  · rw [scan_batch_slice_length T B c hT0, hlenB, new_scan_index]

/-- Claim C3 witness: instruments `[A,B,C,D,E]`, `B = 2`, cursor `4`: the
pre-shuffle batch is `[E, A]` (indices `[4, 0]`) and the committed cursor
is `1`. -/
theorem batch_selection_spec_witness :
    scan_batch_slice (List.range 5) 2 4 = [4, 0] ∧
    new_scan_index 5 (4 % 5) (scan_batch_slice (List.range 5) 2 4).length = 1 ∧
    scan_batch_slice ["A", "B", "C", "D", "E"] 2 4 = ["E", "A"] := by
  have h := batch_selection_spec 5 2 4 (by decide) (by decide)
  refine ⟨h.2.2.1.trans (by decide), h.2.2.2.trans (by decide), by decide⟩

theorem writer_loss_foldl (ce_oi pe_oi : List (Int × Int)) (t : Int) :
    ∀ (strikes : List Int) (a : Int),
      strikes.foldl
          (fun total_loss strike =>
            total_loss
              + (if strike < t then (t - strike) * (dget ce_oi strike).getD 0 else 0)
              + (if t < strike then (strike - t) * (dget pe_oi strike).getD 0 else 0))
          a
        = a + claim_loss strikes ce_oi pe_oi t := by
  intro strikes
  induction strikes with
  | nil => intro a; simp [claim_loss]
  | cons s rest ih =>
    intro a
    simp only [List.foldl_cons]
    rw [ih]
    simp only [claim_loss, List.filter_cons]
    by_cases h1 : s < t
    · have h2 : ¬ t < s := by omega
      simp [h1, h2]
      ring
    · by_cases h2 : t < s
      · simp [h1, h2]
        ring
      · simp [h1, h2]

theorem writer_loss_eq_claim (strikes : List Int) (ce_oi pe_oi : List (Int × Int))
    (t : Int) : writer_loss strikes ce_oi pe_oi t = claim_loss strikes ce_oi pe_oi t := by
  unfold writer_loss
  rw [writer_loss_foldl ce_oi pe_oi t strikes 0, Int.zero_add]

theorem max_pain_step_some (loss : Int → Int) (m b t : Int) :
    max_pain_step loss (some m, b) t
      = if loss t < m then (some (loss t), t) else (some m, b) := rfl

/-- Folding `max_pain_step` from a seed strike returns the first strike of the
(sorted) candidate list attaining the minimal loss. -/
theorem max_pain_fold_first_min (loss : Int → Int) :
    ∀ (rest : List Int) (b : Int), (b :: rest).Pairwise (· < ·) →
      (rest.foldl (max_pain_step loss) (some (loss b), b)).2 ∈ b :: rest ∧
      (∀ s ∈ b :: rest,
        loss (rest.foldl (max_pain_step loss) (some (loss b), b)).2 ≤ loss s) ∧
      (∀ s ∈ b :: rest,
        loss s = loss (rest.foldl (max_pain_step loss) (some (loss b), b)).2 →
          (rest.foldl (max_pain_step loss) (some (loss b), b)).2 ≤ s) ∧
      ((rest.foldl (max_pain_step loss) (some (loss b), b)).2 = b ∨
        loss (rest.foldl (max_pain_step loss) (some (loss b), b)).2 < loss b) := by
  intro rest
  induction rest with
  | nil =>
    intro b _
    refine ⟨List.mem_singleton.mpr rfl, ?_, ?_, Or.inl rfl⟩
    · intro s hs
      rw [List.mem_singleton.mp hs]
      exact le_of_eq rfl
    · intro s hs _
      rw [List.mem_singleton.mp hs]
      exact le_of_eq rfl
  | cons t rest' ih =>
    intro b hp
    have hbt : b < t := (List.pairwise_cons.mp hp).1 t (List.mem_cons_self t rest')
    simp only [List.foldl_cons, max_pain_step_some]
    by_cases hl : loss t < loss b
    · rw [if_pos hl]
      have hp' : (t :: rest').Pairwise (· < ·) := List.Pairwise.of_cons hp
      obtain ⟨hmem, hmin, htie, hfirst⟩ := ih t hp'
      have hrt : loss ((rest'.foldl (max_pain_step loss) (some (loss t), t)).2) ≤ loss t := by
        rcases hfirst with h | h
        · rw [h]
        · exact le_of_lt h
      refine ⟨List.mem_cons_of_mem b hmem, ?_, ?_, Or.inr (lt_of_le_of_lt hrt hl)⟩
      · intro s hs
        rcases List.mem_cons.mp hs with h | h
        · rw [h]
          exact le_of_lt (lt_of_le_of_lt hrt hl)
        · exact hmin s h
      · intro s hs heq
        rcases List.mem_cons.mp hs with h | h
        · exfalso
          rw [h] at heq
          have := lt_of_le_of_lt hrt hl
          omega
        · exact htie s h heq
    · rw [if_neg hl]
      have hp' : (b :: rest').Pairwise (· < ·) := by
        rw [List.pairwise_cons] at hp ⊢
        exact ⟨fun x hx => hp.1 x (List.mem_cons_of_mem t hx),
               List.Pairwise.of_cons hp.2⟩
      obtain ⟨hmem, hmin, htie, hfirst⟩ := ih b hp'
      have hrb : loss ((rest'.foldl (max_pain_step loss) (some (loss b), b)).2) ≤ loss b :=
        hmin b (List.mem_cons_self b rest')
      refine ⟨?_, ?_, ?_, hfirst⟩
      · rcases List.mem_cons.mp hmem with h | h
        · rw [h]
          exact List.mem_cons_self b _
        · exact List.mem_cons_of_mem b (List.mem_cons_of_mem t h)
      · intro s hs
        rcases List.mem_cons.mp hs with h | h
        · rw [h]
          exact hrb
        · rcases List.mem_cons.mp h with h2 | h2
          · rw [h2]
            exact le_trans hrb (not_lt.mp hl)
          · exact hmin s (List.mem_cons_of_mem b h2)
      · intro s hs heq
        rcases List.mem_cons.mp hs with h | h
        · exact htie s (h ▸ List.mem_cons_self b rest') (h ▸ heq)
        · rcases List.mem_cons.mp h with h2 | h2
          · rcases hfirst with h3 | h3
            · rw [h3, h2]
              exact le_of_lt hbt
            · exfalso
              rw [h2] at heq
              have h4 := not_lt.mp hl
              omega
          · exact htie s (List.mem_cons_of_mem b h2) heq

theorem max_pain_scan_spec (loss : Int → Int) (strikes : List Int)
    (hne : strikes ≠ []) (hp : strikes.Pairwise (· < ·)) :
    (max_pain_scan loss strikes).2 ∈ strikes ∧
    (∀ s ∈ strikes, loss (max_pain_scan loss strikes).2 ≤ loss s) ∧
    (∀ s ∈ strikes,
      loss s = loss (max_pain_scan loss strikes).2 → (max_pain_scan loss strikes).2 ≤ s) := by
  cases strikes with
  | nil => exact absurd rfl hne
  | cons b rest =>
    have h0 : max_pain_scan loss (b :: rest)
        = rest.foldl (max_pain_step loss) (some (loss b), b) := rfl
    rw [h0]
    obtain ⟨hmem, hmin, htie, _⟩ := max_pain_fold_first_min loss rest b hp
    exact ⟨hmem, hmin, htie⟩

/-- When the payload passes every guard (present `records`, non-empty strike
table), `calculate_max_pain` is the scan of the writer loss over the strike
table of the current expiry. -/
theorem calculate_max_pain_eq (d : NsePayload) (records : NseRecords)
    (h1 : d.records = some records)
    (hne : (max_pain_tables (current_expiry_rows records)).1 ≠ []) :
    calculate_max_pain (some d)
      = (max_pain_scan
          (writer_loss (max_pain_tables (current_expiry_rows records)).1
            (max_pain_tables (current_expiry_rows records)).2.1
            (max_pain_tables (current_expiry_rows records)).2.2)
          (max_pain_tables (current_expiry_rows records)).1).2 := by
  have he1 : records.expiryDates.isEmpty = false := by
    cases hE : records.expiryDates with
    | nil =>
      exfalso
      apply hne
      have : current_expiry_rows records = [] := by
        simp [current_expiry_rows, hE]
      rw [this]
      rfl
    | cons a l => rfl
  have he2 : (current_expiry_rows records).isEmpty = false := by
    cases hR : current_expiry_rows records with
    | nil =>
      exfalso
      apply hne
      rw [hR]
      rfl
    | cons a l => rfl
  have he3 : (max_pain_tables (current_expiry_rows records)).1.isEmpty = false := by
    cases hT : (max_pain_tables (current_expiry_rows records)).1 with
    | nil => exact absurd hT hne
    | cons a l => rfl
  simp only [calculate_max_pain, h1, he1, he2, he3, Bool.false_eq_true, if_false]

/-- Claim C4, amended: whenever the current-expiry strike entries appear in
strictly ascending strike order (as NSE serves them), `calculate_max_pain`
returns a strike of the table minimizing the claimed total loss
`Σ_{s<k} (k-s)·callOI[s] + Σ_{s>k} (s-k)·putOI[s]`, and among equal-loss
minimizers the lowest strike.  Without the ascending-order assumption the
minimization still holds but a tie resolves to the strike listed first in
the payload, not the lower one (see the counterexample). -/
theorem max_pain_first_min (d : NsePayload) (records : NseRecords)
    (h1 : d.records = some records)
    (hne : (max_pain_tables (current_expiry_rows records)).1 ≠ [])
    (hsorted : (max_pain_tables (current_expiry_rows records)).1.Pairwise (· < ·)) :
    calculate_max_pain (some d) ∈ (max_pain_tables (current_expiry_rows records)).1 ∧
    (∀ s ∈ (max_pain_tables (current_expiry_rows records)).1,
      claim_loss (max_pain_tables (current_expiry_rows records)).1
          (max_pain_tables (current_expiry_rows records)).2.1
          (max_pain_tables (current_expiry_rows records)).2.2
          (calculate_max_pain (some d))
        ≤ claim_loss (max_pain_tables (current_expiry_rows records)).1
            (max_pain_tables (current_expiry_rows records)).2.1
            (max_pain_tables (current_expiry_rows records)).2.2 s) ∧
    (∀ s ∈ (max_pain_tables (current_expiry_rows records)).1,
      claim_loss (max_pain_tables (current_expiry_rows records)).1
          (max_pain_tables (current_expiry_rows records)).2.1
          (max_pain_tables (current_expiry_rows records)).2.2 s
        = claim_loss (max_pain_tables (current_expiry_rows records)).1
            (max_pain_tables (current_expiry_rows records)).2.1
            (max_pain_tables (current_expiry_rows records)).2.2
            (calculate_max_pain (some d)) →
      calculate_max_pain (some d) ≤ s) := by
  have hkey := calculate_max_pain_eq d records h1 hne
  obtain ⟨hmem, hmin, htie⟩ := max_pain_scan_spec
    (writer_loss (max_pain_tables (current_expiry_rows records)).1
      (max_pain_tables (current_expiry_rows records)).2.1
      (max_pain_tables (current_expiry_rows records)).2.2)
    (max_pain_tables (current_expiry_rows records)).1 hne hsorted
  rw [hkey]
  refine ⟨hmem, ?_, ?_⟩
  · intro s hs
    rw [← writer_loss_eq_claim, ← writer_loss_eq_claim]
    exact hmin s hs
  · intro s hs heq
    apply htie s hs
    rwa [writer_loss_eq_claim, writer_loss_eq_claim]

/-- Claim C4, counterexample: with the two tying strikes listed in descending
payload order, `calculate_max_pain` returns `10` although strike `5` attains
the same minimal total loss — the lower strike is not returned. -/
theorem max_pain_tiebreak_cex :
    calculate_max_pain (some desc_tie_payload) = 10 ∧
    (5 : Int) ∈ (max_pain_tables (current_expiry_rows desc_tie_records)).1 ∧
    (10 : Int) ∈ (max_pain_tables (current_expiry_rows desc_tie_records)).1 ∧
    claim_loss (max_pain_tables (current_expiry_rows desc_tie_records)).1
        (max_pain_tables (current_expiry_rows desc_tie_records)).2.1
        (max_pain_tables (current_expiry_rows desc_tie_records)).2.2 5
      = claim_loss (max_pain_tables (current_expiry_rows desc_tie_records)).1
          (max_pain_tables (current_expiry_rows desc_tie_records)).2.1
          (max_pain_tables (current_expiry_rows desc_tie_records)).2.2 10 ∧
    (∀ s ∈ (max_pain_tables (current_expiry_rows desc_tie_records)).1,
      claim_loss (max_pain_tables (current_expiry_rows desc_tie_records)).1
          (max_pain_tables (current_expiry_rows desc_tie_records)).2.1
          (max_pain_tables (current_expiry_rows desc_tie_records)).2.2 5
        ≤ claim_loss (max_pain_tables (current_expiry_rows desc_tie_records)).1
            (max_pain_tables (current_expiry_rows desc_tie_records)).2.1
            (max_pain_tables (current_expiry_rows desc_tie_records)).2.2 s) ∧
    calculate_max_pain (some desc_tie_payload) ≠ 5 := by
  refine ⟨by decide, by decide, by decide, by decide, by decide, by decide⟩

/-- Claim C4 witness: the same tying table in ascending order; the amended
theorem applies and the result is the lower strike `5`. -/
theorem max_pain_first_min_witness :
    (calculate_max_pain (some asc_tie_payload)
        ∈ (max_pain_tables (current_expiry_rows asc_tie_records)).1 ∧
      (∀ s ∈ (max_pain_tables (current_expiry_rows asc_tie_records)).1,
        claim_loss (max_pain_tables (current_expiry_rows asc_tie_records)).1
            (max_pain_tables (current_expiry_rows asc_tie_records)).2.1
            (max_pain_tables (current_expiry_rows asc_tie_records)).2.2
            (calculate_max_pain (some asc_tie_payload))
          ≤ claim_loss (max_pain_tables (current_expiry_rows asc_tie_records)).1
              (max_pain_tables (current_expiry_rows asc_tie_records)).2.1
              (max_pain_tables (current_expiry_rows asc_tie_records)).2.2 s) ∧
      (∀ s ∈ (max_pain_tables (current_expiry_rows asc_tie_records)).1,
        claim_loss (max_pain_tables (current_expiry_rows asc_tie_records)).1
            (max_pain_tables (current_expiry_rows asc_tie_records)).2.1
            (max_pain_tables (current_expiry_rows asc_tie_records)).2.2 s
          = claim_loss (max_pain_tables (current_expiry_rows asc_tie_records)).1
              (max_pain_tables (current_expiry_rows asc_tie_records)).2.1
              (max_pain_tables (current_expiry_rows asc_tie_records)).2.2
              (calculate_max_pain (some asc_tie_payload)) →
        calculate_max_pain (some asc_tie_payload) ≤ s)) ∧
    calculate_max_pain (some asc_tie_payload) = 5 :=
  ⟨max_pain_first_min asc_tie_payload asc_tie_records rfl (by decide) (by decide),
   by decide⟩

/-- Claim C9, counterexample: two snapshots of strike 50 at minutes 100 and
110, queried at minute 120 with a 30-minute window.  The claimed formula
(earliest snapshot with timestamp ≥ 90 is the row at 100, latest overall is
the row at 110) gives `(150-100, 260-200) = (50, 60)`, but the code returns
a zero change: no timestamp is ≤ 90, so the past side falls back to the
earliest timestamp, and the "current" side also resolves to the oldest row
(the descending iteration's dict overwrite keeps the lowest id per strike). -/
theorem oi_change_chart_cex :
    generate_oi_change_core [chart_row_early, chart_row_late] 120 30
        = some [(50, 0, 0)] ∧
    rolling_delta_claim [chart_row_early, chart_row_late] 120 30 = (50, 60) ∧
    ((0 : Int), (0 : Int)) ≠ ((50 : Int), (60 : Int)) := by
  refine ⟨by decide, by decide, by decide⟩

/-- Claim C9, amended: the chart's per-strike delta subtracts the snapshot
at the latest timestamp `≤ target` from the oldest snapshot of the strike
in the current-expiry group (the descending iteration with dict overwrite
keeps the lowest-id row per strike, not the latest), where `target` is the
*time-of-day* of `now - N`: a window crossing midnight wraps the target to
a late-evening time, making the past snapshot the latest available one;
only when the un-wrapped target falls below every timestamp does the code
fall back to the earliest timestamp.  For a single-strike history of two
rows the delta is therefore `first - last` when the later row's timestamp
is `≤ target` (both rows predate the window start, or the window wrapped
past midnight) and `(0, 0)` otherwise — never the claimed
`latest - earliest` over the window. -/
theorem oi_change_chart_two_row_characterization (a b : ChainRow) (now n : Nat)
    (hts : a.ts < b.ts) (hstrike : b.strike_price = a.strike_price)
    (hexp : b.expiry_date = a.expiry_date) :
    generate_oi_change_core [a, b] now n
      = some [(a.strike_price,
               if b.ts ≤ chart_target_time now n then a.call_oi - b.call_oi else 0,
               if b.ts ≤ chart_target_time now n then a.put_oi - b.put_oi else 0)] := by
  have hne : ¬ (a.ts = b.ts) := by omega
  have hne2 : ¬ (b.ts = a.ts) := by omega
  have hle : ¬ (b.ts ≤ a.ts) := by omega
  by_cases hb : b.ts ≤ chart_target_time now n
  · have ha : a.ts ≤ chart_target_time now n := by omega
    simp [generate_oi_change_core, dget, dkeys, past_key_scan, hexp, hstrike,
      hne, hne2, hle, ha, hb, List.insertionSort, List.orderedInsert, sub_self]
  · by_cases ha : a.ts ≤ chart_target_time now n
    · simp [generate_oi_change_core, dget, dkeys, past_key_scan, hexp, hstrike,
        hne, hne2, hle, ha, hb, List.insertionSort, List.orderedInsert, sub_self]
    · simp [generate_oi_change_core, dget, dkeys, past_key_scan, hexp, hstrike,
        hne, hne2, hle, ha, hb, List.insertionSort, List.orderedInsert, sub_self]

/-- Claim C9 witness: at `now = 200`, `N = 30` the target is 170, after both
snapshots, so the chart reports `first - last` (`(-50, -60)` for strike 50);
and at `now = 30` (00:30), `N = 60` the window crosses midnight, the target
wraps to 1410 (23:30) and the chart again subtracts the latest snapshot
from the oldest — the midnight-crossing path the original claim misses. -/
theorem oi_change_chart_two_row_witness :
    generate_oi_change_core [chart_row_early, chart_row_late] 200 30
        = some [(50, -50, -60)] ∧
    generate_oi_change_core [chart_row_early, chart_row_late] 30 60
        = some [(50, -50, -60)] := by
  have h1 := oi_change_chart_two_row_characterization chart_row_early chart_row_late
    200 30 (by decide) (by decide) (by decide)
  have h2 := oi_change_chart_two_row_characterization chart_row_early chart_row_late
    30 60 (by decide) (by decide) (by decide)
  rw [h1, h2]
  constructor
  · decide
  · decide
